import Mathlib

/-!
Verification of the statement-extraction and categorization pipeline of
`backend/app.py` (bank-statement PDF ingestion).

The Python functions are shallowly embedded as executable Lean definitions:

* strings are Lean `String`s and all Python string primitives used by the
  source (`lower`, `strip`, `split`, `in`, `startswith`, `title`) are
  re-implemented over `List Char` (ASCII behaviour, which is all the
  pipeline's rule tables and test strings exercise);
* Python `float` values are modelled as exact rationals `ℚ` (only
  construction from decimal literals and sign comparisons occur in the
  modelled code);
* `re` patterns appearing in the source are compiled by hand into
  decidable matching functions, one per pattern;
* the only exception that can escape the body of
  `extract_transactions_from_pdf` is the document-open failure of
  `pdfplumber.open`; it is modelled as an `Except String` input.
-/

namespace Finacial

/-! ### Python string primitives -/

/-- Python `str.lower()` (ASCII case folding, as used by the rule tables). -/
def strLower (s : String) : String := ⟨s.data.map Char.toLower⟩

/-- Python `str.strip()`: drop leading and trailing whitespace. -/
def pyStrip (s : String) : String :=
  ⟨((s.data.dropWhile Char.isWhitespace).reverse.dropWhile Char.isWhitespace).reverse⟩

/-- Substring test over character lists: Python `needle in hay`. -/
def charsContains : List Char → List Char → Bool
  | [], needle => needle.isEmpty
  | c :: t, needle => needle.isPrefixOf (c :: t) || charsContains t needle

/-- Python `sub in s` for strings. -/
def strContains (s sub : String) : Bool := charsContains s.data sub.data

/-- Python `s.startswith(pre)`. -/
def strStartsWith (s pre : String) : Bool := pre.data.isPrefixOf s.data

/-- Split a character list at every separator character, keeping empty
pieces: Python `s.split('\n')`-style splitting. -/
def splitPred (p : Char → Bool) : List Char → List (List Char)
  | [] => [[]]
  | c :: t =>
    if p c then [] :: splitPred p t
    else
      match splitPred p t with
      | [] => [[c]]
      | h :: r => (c :: h) :: r

/-- Python `s.split('\n')`. -/
def pyLines (s : String) : List String :=
  (splitPred (fun c => c = '\n') s.data).map (fun l => (⟨l⟩ : String))

/-- Python `s.split()` (no argument): split on whitespace runs, dropping
empty pieces. -/
def pySplit (s : String) : List String :=
  ((splitPred Char.isWhitespace s.data).filter (fun l => l ≠ [])).map
    (fun l => (⟨l⟩ : String))

/-- Helper for Python `str.title()`: the boolean argument records whether the
previous character was alphabetic. -/
def titleChars : Bool → List Char → List Char
  | _, [] => []
  | prevAlpha, c :: t =>
    if c.isAlpha then
      (if prevAlpha then c.toLower else c.toUpper) :: titleChars true t
    else c :: titleChars false t

/-- Python `str.title()` (ASCII letters). -/
def pyTitle (s : String) : String := ⟨titleChars false s.data⟩

/-! ### Category data (`CATEGORIES`, `CATEGORIZATION_RULES`) -/

/-- The fixed category enumeration of `app.py`. -/
def CATEGORIES : List String :=
  [ "Uncategorized", "Processing", "Bank Fees", "Advertisement", "Marketing",
    "Repairs and Maintenance", "EV/Gas", "Supplies", "Software", "Meals 50%",
    "Shipping", "Travel", "Utilities", "Office Rent", "Professional Services",
    "Equipment", "Sales", "Insurance", "Other" ]

/-- The keyword rule table of `app.py`, in the dict's insertion order (Python
dicts iterate in insertion order). -/
def CATEGORIZATION_RULES : List (String × List String) :=
  [ ("Processing", ["square", "stripe", "paypal"]),
    ("Bank Fees", ["fee", "charge", "interest", "overdraft"]),
    ("Advertisement", ["photo", "photohub", "printing", "ad", "advertisement"]),
    ("Marketing", ["facebook", "instagram", "google ads", "advertising", "marketing"]),
    ("Repairs and Maintenance",
      ["home depot", "lowe", "advance auto", "autozone", "autopart", "repair", "maintenance"]),
    ("EV/Gas", ["supercharging", "super charging", "gas station", "fuel"]),
    ("Supplies", ["office depot", "staples", "ikea", "amazon", "supplies", "paper", "ink"]),
    ("Software",
      ["google svcs", "google", "microsoft", "adobe", "slack", "zoom", "dropbox", "aws",
       "github", "canva", "expens"]),
    ("Meals 50%",
      ["mcdonald", "starbucks", "chick-fil-a", "chipotle", "wendy", "burger king", "dunkin",
       "panera", "subway", "domino"]),
    ("Shipping", ["ups store", "fedex", "usps", "shipping"]),
    ("Travel", ["uber", "lyft", "hotel", "airline", "parking"]),
    ("Utilities",
      ["bge", "balt gas", "gas and electric", "utility", "utilities", "electric", "water",
       "verizon", "comcast"]),
    ("Professional Services", ["legal", "accounting", "consulting", "lawyer", "cpa"]) ]

/-- Python `categorize_transaction(description, amount=None)` of `app.py`.
Amounts are modelled as `Option ℚ` (`None` / a Python float). -/
def categorize_transaction (description : String) (amount : Option ℚ := none) : String :=
  let dl := strLower description
  if strContains dl "tesla" then
    if strContains dl "super" || strContains dl "charge" then "EV/Gas"
    else "Repairs and Maintenance"
  else if strContains dl "home depot" then "Repairs and Maintenance"
  else if strContains dl "hdphotohub" then "Software"
  else if strContains dl "affirm" then "Equipment"
  else if strContains dl "amex" then "Bank Fees"
  else if strContains dl "square inc" || strStartsWith dl "square " || strStartsWith dl "sq *" then
    match amount with
    | some a => if 0 < a then "Sales" else "Uncategorized"
    | none => "Uncategorized"
  else if strContains dl "apple" then "Software"
  else if strContains dl "bk od amer" then "Bank Fees"
  else if strContains dl "cubicasa" then "Software"
  else
    match CATEGORIZATION_RULES.find? (fun r => r.2.any (fun k => strContains dl k)) with
    | some r => r.1
    | none => "Uncategorized"

/-! ### Vendor normalization (`VENDOR_NORMALIZATION_RULES`, `normalize_vendor`)

Each regex of the source's rule list is compiled into a decidable search
function.  All rules carry `re.IGNORECASE`, so matching is performed on the
lowercased description against lowercase literals.  `\b` is the usual word
boundary (word characters being `[A-Za-z0-9_]`). -/

/-- A regex word character (`\w`, ASCII). -/
def isWordChar (c : Char) : Bool := c.isAlpha || c.isDigit || c = '_'

/-- Word-boundary condition against the character preceding the match
position (`none` at the start of the string). -/
def boundaryBefore : Option Char → Bool
  | none => true
  | some c => !isWordChar c

/-- Word-boundary condition against the first character after the match
(`[]` at the end of the string). -/
def boundaryAfter : List Char → Bool
  | [] => true
  | c :: _ => !isWordChar c

/-- The `re.search` driver: try the position matcher `p` at every position of the
string, feeding it the preceding character. -/
def searchAt (p : Option Char → List Char → Bool) : Option Char → List Char → Bool
  | prev, [] => p prev []
  | prev, c :: t => p prev (c :: t) || searchAt p (some c) t

/-- Matcher for `\bw\b` at one position (`w` a literal of word characters). -/
def wordAt (w : List Char) (prev : Option Char) (l : List Char) : Bool :=
  boundaryBefore prev && w.isPrefixOf l && boundaryAfter (l.drop w.length)

/-- Search `re.search(r"\bw\b", hay)` for a literal `w`. -/
def searchWord (w : String) (hay : List Char) : Bool := searchAt (wordAt w.data) none hay

/-- Matcher for a plain literal at one position (no boundaries). -/
def litAt (w : List Char) (_ : Option Char) (l : List Char) : Bool := w.isPrefixOf l

/-- Search with `re.search` for a plain literal (no boundaries). -/
def searchLit (w : String) (hay : List Char) : Bool := searchAt (litAt w.data) none hay

/-- Matcher for `\bPAY\s*PAL\b` at one position (the `\s*` is forced maximal
because `p` is not whitespace). -/
def payPalAt (prev : Option Char) (l : List Char) : Bool :=
  boundaryBefore prev &&
    (if ['p', 'a', 'y'].isPrefixOf l then
      let l1 := (l.drop 3).dropWhile Char.isWhitespace
      ['p', 'a', 'l'].isPrefixOf l1 && boundaryAfter (l1.drop 3)
    else false)

/-- Matcher for `HOME\s*DEPOT` at one position. -/
def homeDepotAt (_ : Option Char) (l : List Char) : Bool :=
  if ['h', 'o', 'm', 'e'].isPrefixOf l then
    ['d', 'e', 'p', 'o', 't'].isPrefixOf ((l.drop 4).dropWhile Char.isWhitespace)
  else false

/-- The ordered vendor rule list of `app.py`: a compiled search function per
source regex, paired with the canonical name it returns. -/
def VENDOR_NORMALIZATION_RULES : List ((List Char → Bool) × String) :=
  [ (searchWord "affirm", "Affirm"),
    (fun h => searchWord "gogle" h || searchWord "google" h, "Google"),
    (fun h => searchWord "gsuite" h || searchWord "workspace" h, "Google"),
    (fun h => searchAt payPalAt none h || searchWord "paypal" h, "PayPal"),
    (searchWord "amazon", "Amazon"),
    (searchLit "mcdonald", "McDonald's"),
    (searchWord "starbucks", "Starbucks"),
    (searchAt homeDepotAt none, "The Home Depot"),
    (fun h => searchWord "apple" h || searchLit "apple.com" h || searchLit "applecom" h ||
      searchLit "applecard" h, "Apple"),
    (fun h => searchWord "microsoft" h || searchWord "msft" h, "Microsoft"),
    (searchWord "uber", "Uber"),
    (searchWord "lyft", "Lyft") ]

/-- First vendor rule (in list order) whose pattern matches the description,
with its canonical name. -/
def vendorRuleMatch (description : String) : Option String :=
  (VENDOR_NORMALIZATION_RULES.find? (fun r => r.1 (strLower description).data)).map (·.2)

/-- The fallback cleaning of `normalize_vendor`:
`re.sub(r"[^A-Za-z\s]", "", description).strip()`. -/
def vendorFallbackClean (description : String) : String :=
  pyStrip ⟨description.data.filter (fun c => c.isAlpha || c.isWhitespace)⟩

/-- Python `normalize_vendor(description)` of `app.py`. -/
def normalize_vendor (description : String) : String :=
  if description = "" then "Unknown"
  else
    match vendorRuleMatch description with
    | some name => name
    | none =>
      let cleaned := vendorFallbackClean description
      if cleaned = "" then description
      else
        let words := pySplit cleaned
        let candidate :=
          if 3 ≤ words.length then String.intercalate " " (words.take 3)
          else String.intercalate " " words
        pyTitle candidate

/-! ### Amount parsing

The source parses a raw amount string by
`re.sub(r'[,$]', '', s)`, the parenthesized-negative rewrite, and `float`.
Python floats are modelled as exact rationals; `float()` is modelled on its
decimal forms (optional sign, digits, optional point) — the exponent,
infinity, nan and underscore forms never arise from statement strings. -/

/-- Numeric value of a digit string. -/
def digitsVal (l : List Char) : Nat := l.foldl (fun a c => a * 10 + (c.toNat - 48)) 0

/-- The unsigned part of Python `float()` on decimal forms:
`digits`, `digits.`, `digits.digits` or `.digits`.  The numeral
`intPart.frac` denotes the rational `(intPart·10^k + frac) / 10^k` where `k`
is the number of fraction digits. -/
def parseUnsigned (l : List Char) : Option ℚ :=
  let intPart := l.takeWhile Char.isDigit
  let rest := l.dropWhile Char.isDigit
  match rest with
  | [] => if intPart = [] then none else some (mkRat (digitsVal intPart) 1)
  | '.' :: frac =>
    if frac.all Char.isDigit ∧ (intPart ≠ [] ∨ frac ≠ []) then
      some (mkRat (digitsVal intPart * 10 ^ frac.length + digitsVal frac) (10 ^ frac.length))
    else none
  | _ => none

/-- Python `float(s)` on the decimal forms (leading/trailing whitespace
stripped, optional single sign). -/
def pythonFloat (s : String) : Option ℚ :=
  match (pyStrip s).data with
  | '-' :: rest => (parseUnsigned rest).map (fun q => -q)
  | '+' :: rest => parseUnsigned rest
  | l => parseUnsigned l

/-- Python `re.sub(r'[,$]', '', s)`: drop every comma and dollar sign. -/
def stripCommaDollar (s : String) : String :=
  ⟨s.data.filter (fun c => !(c = ',' || c = '$'))⟩

/-- The parenthesized-negative rewrite of the extractor: if the cleaned
string starts with `(` and ends with `)`, replace it by `-` ++ inner. -/
def parenNegate (s : String) : String :=
  if s.data.head? = some '(' ∧ s.data.getLast? = some ')' then
    ⟨'-' :: (s.data.drop 1).dropLast⟩
  else s

/-- The amount-parsing block of `extract_transactions_from_pdf` (identical in
the table pass and the text-line pass). -/
def parse_amount (s : String) : Option ℚ :=
  pythonFloat (parenNegate (stripCommaDollar s))

/-! ### Date parsing

`datetime.strptime(s, '%m/%d/%y')` / `'%m/%d/%Y'` followed by `.date()`.
`strptime` compiles the formats to anchored regexes
(`%m` ↦ `1[0-2]|0[1-9]|[1-9]`, `%d` ↦ `3[01]|[12]\d|0[1-9]|[1-9]`,
`%y` ↦ `\d\d`, `%Y` ↦ `\d\d\d\d`) requiring the whole string to be
consumed, then builds a `datetime.date`, which validates the day against
the month length. -/

/-- A calendar date as produced by `datetime.date`. -/
structure Date where
  year : Nat
  month : Nat
  day : Nat
deriving DecidableEq, Repr

/-- Gregorian leap year (as in `datetime`). -/
def isLeap (y : Nat) : Bool := y % 4 = 0 && (!(y % 100 = 0) || y % 400 = 0)

/-- Length of a month (as validated by `datetime.date`). -/
def daysInMonth (y m : Nat) : Nat :=
  if m = 2 then (if isLeap y then 29 else 28)
  else if m = 4 ∨ m = 6 ∨ m = 9 ∨ m = 11 then 30
  else 31

/-- Value of a two-digit numeral. -/
def twoDigitVal (c1 c2 : Char) : Nat := (c1.toNat - 48) * 10 + (c2.toNat - 48)

/-- The `%m` regex `1[0-2]|0[1-9]|[1-9]`: possible parses at the front of the
string, in the regex's alternation order. -/
def monthParses (l : List Char) : List (Nat × List Char) :=
  (match l with
   | c1 :: c2 :: rest =>
     if c1.isDigit ∧ c2.isDigit ∧ 1 ≤ twoDigitVal c1 c2 ∧ twoDigitVal c1 c2 ≤ 12 then
       [(twoDigitVal c1 c2, rest)]
     else []
   | _ => []) ++
  (match l with
   | c :: rest => if '1' ≤ c ∧ c ≤ '9' then [(c.toNat - 48, rest)] else []
   | _ => [])

/-- The `%d` regex `3[01]|[12]\d|0[1-9]|[1-9]`: possible parses at the front
of the string. -/
def dayParses (l : List Char) : List (Nat × List Char) :=
  (match l with
   | c1 :: c2 :: rest =>
     if c1.isDigit ∧ c2.isDigit ∧ 1 ≤ twoDigitVal c1 c2 ∧ twoDigitVal c1 c2 ≤ 31 then
       [(twoDigitVal c1 c2, rest)]
     else []
   | _ => []) ++
  (match l with
   | c :: rest => if '1' ≤ c ∧ c ≤ '9' then [(c.toNat - 48, rest)] else []
   | _ => [])

/-- Consume the literal `/` of the format. -/
def parseSlashRest : List Char → Option (List Char)
  | '/' :: t => some t
  | _ => none

/-- Python `datetime.strptime(s, '%m/%d/%y' or '%m/%d/%Y').date()`, with
`yearLen = 2` or `4` digits.  Two-digit years map to 2000–2068 / 1969–1999,
and the resulting date is validated exactly as `datetime.date` does. -/
def parseMDY (yearLen : Nat) (s : String) : Option Date :=
  (monthParses s.data).findSome? fun mp =>
    match parseSlashRest mp.2 with
    | none => none
    | some r1 =>
      (dayParses r1).findSome? fun dp =>
        match parseSlashRest dp.2 with
        | none => none
        | some ys =>
          if ys.length = yearLen ∧ ys.all Char.isDigit then
            let yv := digitsVal ys
            let y := if yearLen = 2 then (if yv ≤ 68 then 2000 + yv else 1900 + yv) else yv
            if 1 ≤ y ∧ dp.1 ≤ daysInMonth y mp.1 then some ⟨y, mp.1, dp.1⟩ else none
          else none

/-- The date-parsing block of `extract_transactions_from_pdf`: try
`'%m/%d/%y'` first, then `'%m/%d/%Y'`. -/
def parse_date (s : String) : Option Date :=
  match parseMDY 2 s with
  | some d => some d
  | none => parseMDY 4 s

/-! ### Statement extractor (`extract_transactions_from_pdf`)

A parsed PDF is a list of pages; a page provides its detected tables (grids
of optional cell strings, as from `page.extract_tables()`) and its extracted
text (`page.extract_text()`, `none` for Python `None`).  A transaction
record keeps the parsed `datetime.date` value (the source stores
`date_obj.isoformat()`, an injective rendering of it). -/

/-- One extracted transaction record. -/
structure Transaction where
  date : Date
  description : String
  amount : ℚ
  category : String
deriving DecidableEq, Repr

/-- One page of the parsed PDF. -/
structure Page where
  tables : List (List (List (Option String)))
  text : Option String

/-- Python `cell.strip() if cell else ""` of the table pass. -/
def cleanCell : Option String → String
  | none => ""
  | some s => pyStrip s

/-- Helper for `re.match(r'\d{1,2}[/ or -]\d{1,2}[/ or -]\d{2,4}', s)` succeeds: consume exactly
`n` digits. -/
def consumeDigits : Nat → List Char → Option (List Char)
  | 0, l => some l
  | _ + 1, [] => none
  | n + 1, c :: t => if c.isDigit then consumeDigits n t else none

/-- Consume one separator `[/ or -]`. -/
def consumeSep : List Char → Option (List Char)
  | c :: t => if c = '/' ∨ c = '-' then some t else none
  | [] => none

/-- Whether `re.match(r'\d{1,2}[/ or -]\d{1,2}[/ or -]\d{2,4}', s)` succeeds: some prefix of
the string matches, for some admissible digit-group lengths. -/
def dateMatch (l : List Char) : Bool :=
  [1, 2].any fun i =>
    match consumeDigits i l with
    | none => false
    | some l1 =>
      match consumeSep l1 with
      | none => false
      | some l2 =>
        [1, 2].any fun j =>
          match consumeDigits j l2 with
          | none => false
          | some l3 =>
            match consumeSep l3 with
            | none => false
            | some l4 => [2, 3, 4].any fun k => (consumeDigits k l4).isSome

/-- Whether `re.search(r'\d{1,2}[/ or -]\d{1,2}[/ or -]\d{2,4}', s)` succeeds: the date
pattern matches at some position. -/
def dateSearch : List Char → Bool
  | [] => dateMatch []
  | c :: t => dateMatch (c :: t) || dateSearch t

/-- Whether `re.search(r'[\d,]+\.?\d*', s)` succeeds.  The pattern's minimal match is
a single digit or comma, so the search succeeds exactly when the string
contains one. -/
def numericSearch (s : String) : Bool := s.data.any (fun c => c.isDigit || c = ',')

/-- The candidate filter of the table pass: rows of fewer than 3 cells are
ignored; cells are cleaned; rows whose first cleaned cell is empty (or that
are entirely empty) are skipped; the first cell must `re.match` the date
pattern and the last cell must `re.search` the numeric pattern.  On success,
return the date string, the interior cells joined by spaces, and the amount
string. -/
def rowCandidate (row : List (Option String)) : Option (String × String × String) :=
  if 3 ≤ row.length then
    let cleaned := row.map cleanCell
    let c0 := cleaned.headD ""
    if c0 = "" || !cleaned.any (fun s => s != "") then none
    else
      let date_str := c0
      let description := String.intercalate " " (cleaned.drop 1).dropLast
      let amount_str := cleaned.getLastD ""
      if dateMatch date_str.data && numericSearch amount_str then
        some (date_str, description, amount_str)
      else none
  else none

/-- Parse and emit one table row: amount first, then date (failures skip the
row), then auto-categorize. -/
def rowTransaction (row : List (Option String)) : Option Transaction :=
  match rowCandidate row with
  | none => none
  | some (date_str, description, amount_str) =>
    match parse_amount amount_str with
    | none => none
    | some amount =>
      match parse_date date_str with
      | none => none
      | some dateObj => some ⟨dateObj, description, amount, categorize_transaction description (some amount)⟩

/-- Parse and emit one text line: strip it, require a date-shaped and a
digit-shaped substring somewhere in the line, whitespace-tokenize, require
at least 3 tokens, then parse first token as date, last as amount, interior
joined as description. -/
def lineTransaction (rawLine : String) : Option Transaction :=
  let line := pyStrip rawLine
  if line = "" then none
  else if dateSearch line.data && numericSearch line then
    let parts := pySplit line
    if 3 ≤ parts.length then
      let date_str := parts.headD ""
      let amount_str := parts.getLastD ""
      let description := String.intercalate " " (parts.drop 1).dropLast
      match parse_amount amount_str with
      | none => none
      | some amount =>
        match parse_date date_str with
        | none => none
        | some dateObj => some ⟨dateObj, description, amount, categorize_transaction description (some amount)⟩
    else none
  else none

/-- Append an optional element at the back (`transactions_data.append`). -/
def appendOpt (acc : List α) : Option α → List α
  | some a => acc ++ [a]
  | none => acc

/-- The table pass of one page, threading the accumulator exactly as the
nested `for` loops of the source do. -/
def tablePassFold (acc : List Transaction) (tables : List (List (List (Option String)))) :
    List Transaction :=
  tables.foldl (fun a table => table.foldl (fun a2 row => appendOpt a2 (rowTransaction row)) a) acc

/-- The text-line pass of one page (`if text:` skips `None` and the empty
string), threading the accumulator. -/
def textPassFold (acc : List Transaction) (text : Option String) : List Transaction :=
  match text with
  | none => acc
  | some t =>
    if t = "" then acc
    else (pyLines t).foldl (fun a line => appendOpt a (lineTransaction line)) acc

/-- The page loop of `extract_transactions_from_pdf`: per page, the table
pass then (always) the text pass, all appending into one list. -/
def extract_transactions_from_doc (pages : List Page) : List Transaction :=
  pages.foldl (fun acc p => textPassFold (tablePassFold acc p.tables) p.text) []

/-- Python `extract_transactions_from_pdf(pdf_path)`: the result of
`pdfplumber.open` is the `Except` input (`Except.error` when the PDF cannot
be opened); the surrounding `try`/`except` catches that failure, logs it and
returns the empty list. -/
def extract_transactions_from_pdf (openResult : Except String (List Page)) : List Transaction :=
  match openResult with
  | .error _ => []
  | .ok pages => extract_transactions_from_doc pages

/-- All transactions of one table, in row order. -/
def tableTransactions (table : List (List (Option String))) : List Transaction :=
  table.filterMap rowTransaction

/-- All table-derived transactions of one page. -/
def pageTableTransactions (p : Page) : List Transaction :=
  (p.tables.map tableTransactions).flatten

/-- All text-line-derived transactions of one page. -/
def pageTextTransactions (p : Page) : List Transaction :=
  match p.text with
  | none => []
  | some t => if t = "" then [] else (pyLines t).filterMap lineTransaction

/-- Modelled from the spec: the claimed caller-visible surface of the
extraction call, in which a document-open failure is fatal for the whole
call and is surfaced to the caller, while every other input yields a
(possibly empty) transaction list.  Used to compare the code's behaviour
with the claim. -/
def specExtractSurfaced (openResult : Except String (List Page)) :
    Except String (List Transaction) :=
  match openResult with
  | .error e => .error e
  | .ok pages => .ok (extract_transactions_from_doc pages)

/-- The table-row candidate condition in the claim's own wording: at least 3
cells, the first non-empty (cleaned) cell matches the date pattern, and the
last cell contains the numeric pattern.  Used to compare the code's
behaviour with the claim. -/
def specRowCandidateClaim (row : List (Option String)) : Bool :=
  decide (3 ≤ row.length) &&
    dateMatch (((row.map cleanCell).filter (fun s => s != "")).headD "").data &&
    numericSearch ((row.map cleanCell).getLastD "")

/-! ### Store records (`add_transaction`, `update_transaction`)

Only the construction and mutation of the transaction record itself is
relevant to the claims; the year/month bucket bookkeeping around it is plain
dictionary plumbing. -/

/-- A stored transaction as kept in the year/month buckets (`id` assigned by
the caller, `date` kept as the caller's string). -/
structure StoredTransaction where
  id : String
  date : String
  description : String
  amount : ℚ
  category : String
deriving DecidableEq, Repr

/-- The request body of `add_transaction` (after the required-field check;
`category` is optional). -/
structure NewTransactionData where
  date : String
  description : String
  amount : ℚ
  category : Option String
deriving DecidableEq, Repr

/-- The record constructed by `add_transaction`: the category is
`data.get('category', 'Uncategorized')`, stored without validation. -/
def add_transaction_record (year month : String) (count : Nat) (data : NewTransactionData) :
    StoredTransaction :=
  { id := year ++ "_" ++ month ++ "_manual_" ++ toString count
    date := data.date
    description := data.description
    amount := data.amount
    category := data.category.getD "Uncategorized" }

/-- The request body of `update_transaction`: each field is overwritten only
when present. -/
structure UpdateTransactionData where
  category : Option String
  description : Option String
  amount : Option ℚ
  date : Option String
deriving DecidableEq, Repr

/-- The in-place update of `update_transaction`: present fields overwrite,
the category without validation. -/
def update_transaction_record (t : StoredTransaction) (d : UpdateTransactionData) :
    StoredTransaction :=
  { t with
    category := d.category.getD t.category
    description := d.description.getD t.description
    amount := d.amount.getD t.amount
    date := d.date.getD t.date }

/-! ## Theorems for the claims -/

/-- Claim C1, counterexample.  The claim asserts that a document-open
failure is surfaced to the caller (the extraction call fails, rather than
swallowing the failure); formally, that the code's extraction agrees with
the surfaced-failure surface `specExtractSurfaced` on every open result.
It does not: for an unopenable document the code catches the error and
returns a successful empty list. -/
theorem claim_C1_counterexample :
    Except.ok (extract_transactions_from_pdf (Except.error "unreadable document")) ≠
      specExtractSurfaced (Except.error "unreadable document") := by
  simp [extract_transactions_from_pdf, specExtractSurfaced]

/-- Claim C1, amended: if the underlying PDF cannot be opened, the
extraction call does not fail — the open failure is caught and the caller
receives an empty transaction list, indistinguishable from a successfully
opened document with no content; for every input the caller gets back a
(possibly empty) list of transactions. -/
theorem claim_C1_amended :
    (∀ e : String, extract_transactions_from_pdf (Except.error e) = []) ∧
    extract_transactions_from_pdf (Except.error "unreadable document") =
      extract_transactions_from_pdf (Except.ok []) :=
  ⟨fun _ => rfl, rfl⟩

/-- Claim C4: every description containing "tesla" (case-insensitively)
together with "super" or "charge" is categorized `EV/Gas`, for any amount;
with "tesla" but neither "super" nor "charge", it is categorized
`Repairs and Maintenance`, for any amount. -/
theorem claim_C4_tesla_rule (d : String) (a : Option ℚ)
    (h : strContains (strLower d) "tesla" = true) :
    ((strContains (strLower d) "super" = true ∨ strContains (strLower d) "charge" = true) →
      categorize_transaction d a = "EV/Gas") ∧
    (strContains (strLower d) "super" = false → strContains (strLower d) "charge" = false →
      categorize_transaction d a = "Repairs and Maintenance") := by
  constructor
  · rintro (hs | hs) <;> simp [categorize_transaction, h, hs]
  · intro hs hc
    simp [categorize_transaction, h, hs, hc]

/-- Claim C4, witness at concrete descriptions. -/
theorem claim_C4_tesla_rule_witness :
    categorize_transaction "TESLA SUPERCHARGER" none = "EV/Gas" ∧
    categorize_transaction "TESLA SERVICE" none = "Repairs and Maintenance" :=
  ⟨(claim_C4_tesla_rule "TESLA SUPERCHARGER" none (by decide)).1 (Or.inl (by decide)),
   (claim_C4_tesla_rule "TESLA SERVICE" none (by decide)).2 (by decide) (by decide)⟩

/-- Claim C5: the amount parser strips commas and dollar signs, interprets a
parenthesized value as negative and parses the residue as a decimal number,
failing on non-numeric residue.  `"(1,234.56)"` parses to `-1234.56`
(= `-123456/100`), `"$1,234.56"` to `1234.56`, and a non-numeric residue
such as `"N/A"` fails. -/
theorem claim_C5_amount_parsing :
    parse_amount "(1,234.56)" = some (mkRat (-123456) 100) ∧
    parse_amount "$1,234.56" = some (mkRat 123456 100) ∧
    parse_amount "N/A" = none := by
  decide

/-- Claim C6: the date parser tries `%m/%d/%y` (two-digit year) first, then
`%m/%d/%Y` (four-digit year), failing when neither matches; `"3/4/24"` and
`"03/04/2024"` both parse to 2024-03-04. -/
theorem claim_C6_date_parsing :
    parse_date "3/4/24" = some ⟨2024, 3, 4⟩ ∧
    parse_date "03/04/2024" = some ⟨2024, 3, 4⟩ ∧
    (∀ s d, parseMDY 2 s = some d → parse_date s = some d) ∧
    (∀ s, parseMDY 2 s = none → parse_date s = parseMDY 4 s) := by
  refine ⟨by decide, by decide, ?_, ?_⟩
  · intro s d h
    simp [parse_date, h]
  · intro s h
    simp [parse_date, h]

/-- Claim C6, witness: the two-digit-year format applied at a concrete
input, and the fallback to the four-digit-year format at another. -/
theorem claim_C6_date_parsing_witness :
    parse_date "12/31/99" = some ⟨1999, 12, 31⟩ ∧
    parse_date "02/30/24" = parseMDY 4 "02/30/24" :=
  ⟨claim_C6_date_parsing.2.2.1 "12/31/99" ⟨1999, 12, 31⟩ (by decide),
   claim_C6_date_parsing.2.2.2 "02/30/24" (by decide)⟩

/-- Claim C2, counterexample.  The claim quantifies over every description
starting (case-insensitively) with "square " or "sq *", but the special-case
overrides that precede the square check still apply: "SQUARE HOME DEPOT"
starts with "square " and has a positive amount, yet is categorized
`Repairs and Maintenance`, not `Sales`. -/
theorem claim_C2_counterexample :
    strStartsWith (strLower "SQUARE HOME DEPOT") "square " = true ∧
    categorize_transaction "SQUARE HOME DEPOT" (some 5) ≠ "Sales" := by
  decide

/-- Claim C2, amended: for every description that (case-insensitively)
starts with "square " or "sq *" and that triggers none of the earlier
special-case overrides (no "tesla", "home depot", "hdphotohub", "affirm" or
"amex" substring), categorization with a positive amount returns `Sales`
and with a non-positive amount returns `Uncategorized` (not `Processing`,
overriding the generic keyword rule). -/
theorem claim_C2_amended (d : String) (a : ℚ)
    (hsq : strStartsWith (strLower d) "square " = true ∨
      strStartsWith (strLower d) "sq *" = true)
    (h1 : strContains (strLower d) "tesla" = false)
    (h2 : strContains (strLower d) "home depot" = false)
    (h3 : strContains (strLower d) "hdphotohub" = false)
    (h4 : strContains (strLower d) "affirm" = false)
    (h5 : strContains (strLower d) "amex" = false) :
    categorize_transaction d (some a) = if 0 < a then "Sales" else "Uncategorized" := by
  rcases hsq with hsq | hsq <;>
    simp [categorize_transaction, h1, h2, h3, h4, h5, hsq]

/-- Claim C2, witness: the amended rule at a concrete description, for a
positive and a non-positive amount. -/
theorem claim_C2_amended_witness :
    categorize_transaction "SQUARE PAYMENT" (some 5) = "Sales" ∧
    categorize_transaction "Sq *Deposit" (some (-3)) = "Uncategorized" := by
  constructor
  · have h := claim_C2_amended "SQUARE PAYMENT" 5 (Or.inl (by decide)) (by decide) (by decide)
      (by decide) (by decide) (by decide)
    simpa using h
  · have h := claim_C2_amended "Sq *Deposit" (-3) (Or.inr (by decide)) (by decide) (by decide)
      (by decide) (by decide) (by decide)
    simpa using h

/-- If a string contains `n` as a substring, it contains every prefix of
`n` as a substring. -/
theorem charsContains_of_isPrefixOf {hay n m : List Char}
    (hmn : m.isPrefixOf n = true) (h : charsContains hay n = true) :
    charsContains hay m = true := by
  induction hay with
  | nil =>
    simp only [charsContains, List.isEmpty_iff] at h ⊢
    subst h
    rw [List.isPrefixOf_iff_prefix] at hmn
    exact List.prefix_nil.mp hmn
  | cons c t ih =>
    simp only [charsContains, Bool.or_eq_true] at h ⊢
    rcases h with h | h
    · left
      rw [List.isPrefixOf_iff_prefix] at h hmn ⊢
      exact hmn.trans h
    · right
      exact ih h

/-- Claim C10, counterexample.  The claim quantifies over every description
containing "adobe" that matches no step-1 override, but the `Processing` and
`Bank Fees` rows of the keyword table precede `Advertisement`: "Adobe fee"
contains "adobe", matches no step-1 override, and is categorized
`Bank Fees`, not `Advertisement`. -/
theorem claim_C10_counterexample :
    strContains (strLower "Adobe fee") "adobe" = true ∧
    categorize_transaction "Adobe fee" none = "Bank Fees" ∧
    categorize_transaction "Adobe fee" none ≠ "Advertisement" := by
  decide

/-- Claim C10, amended: a description containing "adobe" (case-insensitively)
that matches none of the step-1 special-case overrides is never categorized
`Software` — the keyword "ad" of the `Advertisement` row substring-matches
"adobe" and `Advertisement` precedes `Software` in the rule-table order, so
the "adobe" keyword of the `Software` row is unreachable; and if the
description additionally contains none of the `Processing` and `Bank Fees`
keywords (the only rule-table rows before `Advertisement`), the category is
exactly `Advertisement`. -/
theorem claim_C10_amended (d : String) (a : Option ℚ)
    (hadobe : strContains (strLower d) "adobe" = true)
    (h1 : strContains (strLower d) "tesla" = false)
    (h2 : strContains (strLower d) "home depot" = false)
    (h3 : strContains (strLower d) "hdphotohub" = false)
    (h4 : strContains (strLower d) "affirm" = false)
    (h5 : strContains (strLower d) "amex" = false)
    (h6 : strContains (strLower d) "square inc" = false)
    (h7 : strStartsWith (strLower d) "square " = false)
    (h8 : strStartsWith (strLower d) "sq *" = false)
    (h9 : strContains (strLower d) "apple" = false)
    (h10 : strContains (strLower d) "bk od amer" = false)
    (h11 : strContains (strLower d) "cubicasa" = false) :
    categorize_transaction d a ≠ "Software" ∧
    (strContains (strLower d) "square" = false → strContains (strLower d) "stripe" = false →
      strContains (strLower d) "paypal" = false → strContains (strLower d) "fee" = false →
      strContains (strLower d) "charge" = false → strContains (strLower d) "interest" = false →
      strContains (strLower d) "overdraft" = false →
      categorize_transaction d a = "Advertisement") := by
  have had : strContains (strLower d) "ad" = true :=
    charsContains_of_isPrefixOf (by decide) hadobe
  constructor
  · cases hk1 : strContains (strLower d) "square"
    · cases hk2 : strContains (strLower d) "stripe"
      · cases hk3 : strContains (strLower d) "paypal"
        · cases hk4 : strContains (strLower d) "fee"
          · cases hk5 : strContains (strLower d) "charge"
            · cases hk6 : strContains (strLower d) "interest"
              · cases hk7 : strContains (strLower d) "overdraft"
                · simp [categorize_transaction, CATEGORIZATION_RULES, List.find?, h1, h2, h3,
                    h4, h5, h6, h7, h8, h9, h10, h11, had, hk1, hk2, hk3, hk4, hk5, hk6, hk7]
                · simp [categorize_transaction, CATEGORIZATION_RULES, List.find?, h1, h2, h3,
                    h4, h5, h6, h7, h8, h9, h10, h11, hk1, hk2, hk3, hk4, hk5, hk6, hk7]
              · simp [categorize_transaction, CATEGORIZATION_RULES, List.find?, h1, h2, h3,
                  h4, h5, h6, h7, h8, h9, h10, h11, hk1, hk2, hk3, hk4, hk5, hk6]
            · simp [categorize_transaction, CATEGORIZATION_RULES, List.find?, h1, h2, h3,
                h4, h5, h6, h7, h8, h9, h10, h11, hk1, hk2, hk3, hk4, hk5]
          · simp [categorize_transaction, CATEGORIZATION_RULES, List.find?, h1, h2, h3,
              h4, h5, h6, h7, h8, h9, h10, h11, hk1, hk2, hk3, hk4]
        · simp [categorize_transaction, CATEGORIZATION_RULES, List.find?, h1, h2, h3,
            h4, h5, h6, h7, h8, h9, h10, h11, hk1, hk2, hk3]
      · simp [categorize_transaction, CATEGORIZATION_RULES, List.find?, h1, h2, h3,
          h4, h5, h6, h7, h8, h9, h10, h11, hk1, hk2]
    · simp [categorize_transaction, CATEGORIZATION_RULES, List.find?, h1, h2, h3,
        h4, h5, h6, h7, h8, h9, h10, h11, hk1]
  · intro hk1 hk2 hk3 hk4 hk5 hk6 hk7
    simp [categorize_transaction, CATEGORIZATION_RULES, List.find?, h1, h2, h3, h4, h5, h6,
      h7, h8, h9, h10, h11, had, hk1, hk2, hk3, hk4, hk5, hk6, hk7]

/-- Claim C10, witness at a concrete description. -/
theorem claim_C10_amended_witness :
    categorize_transaction "ADOBE SYSTEMS" none = "Advertisement" ∧
    categorize_transaction "ADOBE SYSTEMS" none ≠ "Software" := by
  have h := claim_C10_amended "ADOBE SYSTEMS" none (by decide) (by decide) (by decide)
    (by decide) (by decide) (by decide) (by decide) (by decide) (by decide) (by decide)
    (by decide) (by decide)
  exact ⟨h.2 (by decide) (by decide) (by decide) (by decide) (by decide) (by decide)
    (by decide), h.1⟩

/-- Claim C8, counterexample.  The claim's fallback clause says that when no
rule matches and stripping leaves nothing, the original description is
returned unchanged; but for the empty description no rule matches and
stripping leaves nothing, and the code's `if not description` guard returns
"Unknown", not the original description. -/
theorem claim_C8_counterexample :
    vendorRuleMatch "" = none ∧ vendorFallbackClean "" = "" ∧
    normalize_vendor "" = "Unknown" ∧ normalize_vendor "" ≠ "" := by
  decide

/-- Claim C8, amended: `normalize_vendor` returns "Unknown" for the empty
description; for every non-empty description it returns the canonical name
of the first matching rule of the ordered rule list, and with no match it
strips non-alphabetic/non-space characters, trims, and returns the first
up-to-three whitespace-separated words title-cased, or the original
description unchanged when stripping leaves nothing.
`normalize_vendor("AMAZON.COM*AB12CD") = "Amazon"` and
`normalize_vendor("RANDOM STORE 123") = "Random Store"`. -/
theorem claim_C8_normalize_vendor :
    normalize_vendor "" = "Unknown" ∧
    normalize_vendor "AMAZON.COM*AB12CD" = "Amazon" ∧
    normalize_vendor "RANDOM STORE 123" = "Random Store" ∧
    (∀ d name, d ≠ "" → vendorRuleMatch d = some name → normalize_vendor d = name) ∧
    (∀ d, d ≠ "" → vendorRuleMatch d = none → vendorFallbackClean d = "" →
      normalize_vendor d = d) ∧
    (∀ d, d ≠ "" → vendorRuleMatch d = none → vendorFallbackClean d ≠ "" →
      normalize_vendor d =
        pyTitle (if 3 ≤ (pySplit (vendorFallbackClean d)).length
          then String.intercalate " " ((pySplit (vendorFallbackClean d)).take 3)
          else String.intercalate " " (pySplit (vendorFallbackClean d)))) := by
  refine ⟨by decide, by decide, by decide, ?_, ?_, ?_⟩
  · intro d name hd h
    simp [normalize_vendor, hd, h]
  · intro d hd h hclean
    simp [normalize_vendor, hd, h, hclean]
  · intro d hd h hclean
    simp [normalize_vendor, hd, h, hclean]

/-- Claim C8, witness: a rule match and a stripped-to-nothing fallback at
concrete non-empty descriptions. -/
theorem claim_C8_normalize_vendor_witness :
    normalize_vendor "UBER RIDE" = "Uber" ∧ normalize_vendor "123" = "123" :=
  ⟨claim_C8_normalize_vendor.2.2.2.1 "UBER RIDE" "Uber" (by decide) (by decide),
   claim_C8_normalize_vendor.2.2.2.2.1 "123" (by decide) (by decide) (by decide)⟩

/-- Every right-hand side of the keyword rule table is a member of the
category enumeration, hence so is every categorization result. -/
theorem categorize_transaction_mem (d : String) (a : Option ℚ) :
    categorize_transaction d a ∈ CATEGORIES := by
  have hrules : ∀ r ∈ CATEGORIZATION_RULES, r.1 ∈ CATEGORIES := by decide
  simp only [categorize_transaction]
  repeat' split
  all_goals first
    | decide
    | (rename_i r heq
       exact hrules r (List.mem_of_find?_eq_some heq))

/-- Claim C9, counterexample.  The claim asserts category membership in the
enumerated set is preserved by manual add (and update), but `add_transaction`
stores the caller-supplied category without validation: adding with category
"Bogus" produces a stored transaction whose category is outside the set. -/
theorem claim_C9_counterexample :
    (add_transaction_record "2024" "01" 0
        ⟨"2024-01-01", "Widget", 5, some "Bogus"⟩).category = "Bogus" ∧
    "Bogus" ∉ CATEGORIES := by
  decide

/-- Claim C9, amended: extraction-time categorization always returns a
member of the fixed category set, and manual add defaults to
`Uncategorized` when no category is supplied; but manual add and in-place
update store a supplied category without validating it, so they preserve
membership only when the supplied category is itself a member. -/
theorem claim_C9_amended :
    (∀ d a, categorize_transaction d a ∈ CATEGORIES) ∧
    (∀ y m c data, data.category = none →
      (add_transaction_record y m c data).category = "Uncategorized") ∧
    (∀ y m c data, (∀ s, data.category = some s → s ∈ CATEGORIES) →
      (add_transaction_record y m c data).category ∈ CATEGORIES) ∧
    (∀ t u, t.category ∈ CATEGORIES → (∀ s, u.category = some s → s ∈ CATEGORIES) →
      (update_transaction_record t u).category ∈ CATEGORIES) := by
  refine ⟨categorize_transaction_mem, ?_, ?_, ?_⟩
  · intro y m c data h
    simp [add_transaction_record, h]
  · intro y m c data h
    match hc : data.category with
    | none => simp [add_transaction_record, hc]; decide
    | some s => simpa [add_transaction_record, hc] using h s hc
  · intro t u ht h
    match hc : u.category with
    | none => simpa [update_transaction_record, hc] using ht
    | some s => simpa [update_transaction_record, hc] using h s hc

/-- Claim C9, witness: the amended invariants at concrete records. -/
theorem claim_C9_amended_witness :
    (add_transaction_record "2024" "02" 1 ⟨"2024-02-02", "Desk", 100, none⟩).category =
      "Uncategorized" ∧
    (add_transaction_record "2024" "02" 1
        ⟨"2024-02-02", "Desk", 100, some "Sales"⟩).category ∈ CATEGORIES ∧
    (update_transaction_record ⟨"id1", "2024-02-02", "Desk", 100, "Sales"⟩
        ⟨some "Travel", none, none, none⟩).category ∈ CATEGORIES :=
  ⟨claim_C9_amended.2.1 "2024" "02" 1 ⟨"2024-02-02", "Desk", 100, none⟩ rfl,
   claim_C9_amended.2.2.1 "2024" "02" 1 ⟨"2024-02-02", "Desk", 100, some "Sales"⟩
     (by intro s hs; injection hs with h; subst h; decide),
   claim_C9_amended.2.2.2 ⟨"id1", "2024-02-02", "Desk", 100, "Sales"⟩
     ⟨some "Travel", none, none, none⟩ (by decide)
     (by intro s hs; injection hs with h; subst h; decide)⟩

/-- Appending optional results one by one equals appending the whole
`filterMap` at once. -/
theorem foldl_appendOpt {α β : Type} (f : α → Option β) (l : List α) (acc : List β) :
    l.foldl (fun a x => appendOpt a (f x)) acc = acc ++ l.filterMap f := by
  induction l generalizing acc with
  | nil => simp
  | cons x t ih =>
    simp only [List.foldl_cons]
    cases hfx : f x with
    | none =>
      rw [ih, List.filterMap_cons, hfx]
      rfl
    | some b =>
      rw [ih, List.filterMap_cons, hfx]
      simp [appendOpt, List.append_assoc]

/-- A fold whose step appends a block per element equals the concatenation
of the blocks. -/
theorem foldl_append_shift {α β : Type} (g : List β → α → List β) (h : α → List β)
    (hg : ∀ a x, g a x = a ++ h x) (l : List α) (acc : List β) :
    l.foldl g acc = acc ++ (l.map h).flatten := by
  induction l generalizing acc with
  | nil => simp
  | cons x t ih =>
    simp only [List.foldl_cons]
    rw [hg, ih]
    simp [List.append_assoc]

/-- The table pass of one page appends exactly its tables' transactions, in
table and row order. -/
theorem tablePassFold_eq (acc : List Transaction) (tables : List (List (List (Option String)))) :
    tablePassFold acc tables = acc ++ (tables.map tableTransactions).flatten := by
  refine foldl_append_shift _ _ (fun a tb => ?_) tables acc
  exact foldl_appendOpt rowTransaction tb a

/-- The text pass of one page appends exactly its text-line transactions, in
line order. -/
theorem textPassFold_eq (acc : List Transaction) (p : Page) :
    textPassFold acc p.text = acc ++ pageTextTransactions p := by
  cases ht : p.text with
  | none => simp [textPassFold, pageTextTransactions, ht]
  | some t =>
    by_cases he : t = "" <;>
      simp [textPassFold, pageTextTransactions, ht, he, foldl_appendOpt]

/-- Claim C7: for every readable PDF both passes run on every page (the
text-line pass also when tables were found), and the output is the
page-ordered concatenation with each page's table-derived transactions
before its text-line-derived ones; duplicates produced by the two passes
are kept.  The second conjunct exhibits a page whose single table row and
single text line yield the same transaction, which appears twice. -/
theorem claim_C7_two_pass_order :
    (∀ pages : List Page, extract_transactions_from_doc pages =
      (pages.map (fun p => pageTableTransactions p ++ pageTextTransactions p)).flatten) ∧
    extract_transactions_from_doc
        [⟨[[[some "1/2/24", some "COFFEE", some "3.50"]]], some "1/2/24 COFFEE 3.50"⟩] =
      [⟨⟨2024, 1, 2⟩, "COFFEE", mkRat 7 2, "Bank Fees"⟩,
       ⟨⟨2024, 1, 2⟩, "COFFEE", mkRat 7 2, "Bank Fees"⟩] := by
  constructor
  · intro pages
    have hg : ∀ (acc : List Transaction) (p : Page),
        textPassFold (tablePassFold acc p.tables) p.text =
          acc ++ (pageTableTransactions p ++ pageTextTransactions p) := by
      intro acc p
      rw [tablePassFold_eq, textPassFold_eq, List.append_assoc]
      rfl
    simpa [extract_transactions_from_doc] using
      foldl_append_shift _ _ hg pages []
  · decide

/-- Mapping cell cleaning commutes with taking the last cell (with the empty
default matching `cleanCell none`). -/
theorem map_cleanCell_getLastD (a : Option String) (t : List (Option String)) :
    (cleanCell a :: t.map cleanCell).getLast?.getD "" =
      cleanCell ((a :: t).getLast?.getD none) := by
  induction t generalizing a with
  | nil => simp
  | cons b t ih =>
    rw [List.map_cons, List.getLast?_cons_cons, List.getLast?_cons_cons]
    exact ih b

/-- Claim C3, counterexample.  The claim's condition reads "its first
non-empty cell matches the date pattern", but the code requires the *first*
cell itself (after cleaning) to be non-empty and to match: the row
`["", "1/2/24", "x", "3.00"]` satisfies the claim's condition (4 cells,
first non-empty cell "1/2/24" matches the date pattern, last cell numeric),
yet the code skips it and emits nothing. -/
theorem claim_C3_counterexample :
    specRowCandidateClaim [some "", some "1/2/24", some "x", some "3.00"] = true ∧
    rowCandidate [some "", some "1/2/24", some "x", some "3.00"] = none ∧
    rowTransaction [some "", some "1/2/24", some "x", some "3.00"] = none := by
  decide

/-- Claim C3, amended: a table row is treated as a transaction candidate
exactly when it has at least 3 cells, its *first* cell is (after stripping)
non-empty and matches the date pattern `\d{1,2}[/ or -]\d{1,2}[/ or -]\d{2,4}`,
and its last cell contains a numeric pattern; the first cell is then the
date string, the last cell the amount string, and the interior cells joined
by spaces the description.  In particular a row with only 2 cells never
yields a transaction, regardless of content. -/
theorem claim_C3_table_row_candidate (row : List (Option String)) :
    (rowCandidate row =
      if 3 ≤ row.length ∧ cleanCell (row.headD none) ≠ "" ∧
          dateMatch (cleanCell (row.headD none)).data = true ∧
          numericSearch (cleanCell (row.getLastD none)) = true
      then some (cleanCell (row.headD none),
        String.intercalate " " ((row.map cleanCell).drop 1).dropLast,
        cleanCell (row.getLastD none))
      else none) ∧
    (row.length = 2 → rowTransaction row = none) := by
  constructor
  · by_cases hlen : 3 ≤ row.length
    · obtain ⟨a, t, rfl⟩ : ∃ a t, row = a :: t := by
        cases row with
        | nil => simp at hlen
        | cons a t => exact ⟨a, t, rfl⟩
      have hlen' : 2 ≤ t.length := by simpa using hlen
      by_cases hc0 : cleanCell a = ""
      · simp [rowCandidate, hlen, hc0]
      · by_cases hdm : dateMatch (cleanCell a).data = true
        · by_cases hns : numericSearch (cleanCell ((a :: t).getLast?.getD none)) = true
          · simp [rowCandidate, hlen', hc0, hdm, hns, map_cleanCell_getLastD]
          · simp [rowCandidate, hlen', hc0, hdm, hns, map_cleanCell_getLastD]
        · simp [rowCandidate, hlen', hc0, hdm, map_cleanCell_getLastD]
    · simp [rowCandidate, hlen]
  · intro h2
    have hnone : rowCandidate row = none := by
      simp [rowCandidate, h2]
    simp [rowTransaction, hnone]

/-- Claim C3, witness: a 2-cell row emits nothing. -/
theorem claim_C3_table_row_candidate_witness :
    rowTransaction [some "1/2/24", some "3.00"] = none :=
  (claim_C3_table_row_candidate [some "1/2/24", some "3.00"]).2 rfl

end Finacial








